import Mathlib

/-!
Shallow embedding of the call-dialogue core of the dental front-desk service
(source: src/app.js).  JavaScript strings are modelled as Lean `String`,
JSON.parse results as the inductive `Json` (numbers as integers), and the
mutable per-call session as an explicit `Session` record threaded through
each webhook handler.  The external text-understanding call is abstracted
as a `ServiceOutcome` input (its reply text, or a network/timeout failure).
-/

namespace FrontDesk

/-- JSON values as produced by JSON.parse (numbers modelled as integers). -/
inductive Json where
  | null : Json
  | bool (b : Bool) : Json
  | num (n : Int) : Json
  | str (s : String) : Json
  | arr (elems : List Json) : Json
  | obj (fields : List (String × Json)) : Json

/-- Test for the JSON null value (property access on null throws in JS). -/
def Json.isNull : Json → Bool
  | Json.null => true
  | _ => false

/-- Whitespace characters recognized by the trimming and parsing helpers. -/
def isWs (c : Char) : Bool :=
  c = ' ' || c = '\n' || c = '\t' || c = '\r'

/-- Model of JavaScript String.prototype.trim: drop whitespace at both ends. -/
def jsTrim (t : String) : String :=
  ⟨((t.data.dropWhile isWs).reverse.dropWhile isWs).reverse⟩

/-- Model of String.prototype.indexOf for a single character: index of the
first occurrence, `none` when absent (JS returns -1). -/
def jsIndexOf : List Char → Char → Option Nat
  | [], _ => none
  | c :: cs, t => if c = t then some 0 else (jsIndexOf cs t).map (fun i => i + 1)

/-- Model of String.prototype.lastIndexOf for a single character: index of
the last occurrence, `none` when absent (JS returns -1). -/
def jsLastIndexOf : List Char → Char → Option Nat
  | [], _ => none
  | c :: cs, t =>
    match jsLastIndexOf cs t with
    | some j => some (j + 1)
    | none => if c = t then some 0 else none

/-- Numeric value of a list of decimal digits. -/
def digitsToNat (ds : List Char) : Nat :=
  ds.foldl (fun acc c => acc * 10 + (c.toNat - 48)) 0

/-- JSON string escape characters (the \u form is not modelled). -/
def escChar (e : Char) : Option Char :=
  if e = '"' then some '"'
  else if e = '\\' then some '\\'
  else if e = '/' then some '/'
  else if e = 'n' then some '\n'
  else if e = 't' then some '\t'
  else if e = 'r' then some '\r'
  else if e = 'b' then some (Char.ofNat 8)
  else if e = 'f' then some (Char.ofNat 12)
  else none

/-- Parse the body of a JSON string literal (after the opening quote),
returning the decoded string and the input remaining after the closing
quote. -/
def parseStringBody : List Char → Option (String × List Char)
  | [] => none
  | c :: cs =>
    if c = '"' then some (("", cs))
    else if c = '\\' then
      match cs with
      | [] => none
      | e :: cs2 =>
        match escChar e with
        | none => none
        | some c2 => (parseStringBody cs2).map (fun p => (⟨c2 :: p.1.data⟩, p.2))
    else (parseStringBody cs).map (fun p => (⟨c :: p.1.data⟩, p.2))

/-- Parsing mode: a bare value, the members of an object, or the elements
of an array (`first` records whether a closing bracket may come next). -/
inductive PMode where
  | val : PMode
  | members (first : Bool) : PMode
  | elems (first : Bool) : PMode

/-- Fuel-bounded recursive-descent JSON parser (the model of JSON.parse).
Returns the parsed value and the remaining input. -/
def parseP : Nat → PMode → List Char → Option (Json × List Char)
  | 0, _, _ => none
  | fuel + 1, PMode.val, cs =>
    let cs := cs.dropWhile isWs
    match cs with
    | [] => none
    | 'n' :: 'u' :: 'l' :: 'l' :: rest => some ((Json.null, rest))
    | 't' :: 'r' :: 'u' :: 'e' :: rest => some ((Json.bool true, rest))
    | 'f' :: 'a' :: 'l' :: 's' :: 'e' :: rest => some ((Json.bool false, rest))
    | '"' :: rest => (parseStringBody rest).map (fun p => (Json.str p.1, p.2))
    | '\x7b' :: rest => parseP fuel (PMode.members true) rest
    | '[' :: rest => parseP fuel (PMode.elems true) rest
    | '-' :: rest =>
      let ds := rest.takeWhile Char.isDigit
      if ds.isEmpty then none
      else some ((Json.num (-(digitsToNat ds : Int)), rest.dropWhile Char.isDigit))
    | c :: _ =>
      if c.isDigit then
        let ds := cs.takeWhile Char.isDigit
        some ((Json.num (digitsToNat ds : Int), cs.dropWhile Char.isDigit))
      else none
  | fuel + 1, PMode.members first, cs =>
    let cs := cs.dropWhile isWs
    match cs with
    | '\x7d' :: rest => if first then some ((Json.obj [], rest)) else none
    | '"' :: rest =>
      match parseStringBody rest with
      | none => none
      | some (k, r1) =>
        match r1.dropWhile isWs with
        | ':' :: r2 =>
          match parseP fuel PMode.val r2 with
          | none => none
          | some (v, r3) =>
            match r3.dropWhile isWs with
            | ',' :: r4 =>
              match parseP fuel (PMode.members false) r4 with
              | some (Json.obj fs, r5) => some ((Json.obj ((k, v) :: fs), r5))
              | _ => none
            | '\x7d' :: r4 => some ((Json.obj [(k, v)], r4))
            | _ => none
        | _ => none
    | _ => none
  | fuel + 1, PMode.elems first, cs =>
    let cs := cs.dropWhile isWs
    match cs with
    | ']' :: rest => if first then some ((Json.arr [], rest)) else none
    | _ =>
      match parseP fuel PMode.val cs with
      | none => none
      | some (v, r1) =>
        match r1.dropWhile isWs with
        | ',' :: r2 =>
          match parseP fuel (PMode.elems false) r2 with
          | some (Json.arr vs, r3) => some ((Json.arr (v :: vs), r3))
          | _ => none
        | ']' :: r2 => some ((Json.arr [v], r2))
        | _ => none

/-- Model of JSON.parse: parse one value and require only whitespace after
it; any syntax error yields `none` (JS throws a SyntaxError, which the
adapter catches). -/
def Json.parse (s : String) : Option Json :=
  match parseP (s.data.length + 1) PMode.val s.data with
  | some (v, rest) => if rest.dropWhile isWs = [] then some v else none
  | none => none

/-- JavaScript truthiness of a JSON value. -/
def jsTruthy : Json → Bool
  | Json.null => false
  | Json.bool b => b
  | Json.num n => n ≠ 0
  | Json.str s => s ≠ ("")
  | Json.arr _ => true
  | Json.obj _ => true

/-- JavaScript truthiness of a possibly-undefined value (`none` models
undefined, which is falsy). -/
def jsTruthyOpt : Option Json → Bool
  | none => false
  | some v => jsTruthy v

/-- Lookup in a JSON object field list; the last binding of a duplicated
key wins, as for objects built by JSON.parse. -/
def lookupLast : List (String × Json) → String → Option Json
  | [], _ => none
  | (k1, v) :: rest, k =>
    match lookupLast rest k with
    | some r => some r
    | none => if k1 = k then some v else none

/-- JavaScript property access `v.k` (on non-objects it yields undefined;
access on null throws, which callers handle separately). -/
def jsGetProp (v : Json) (k : String) : Option Json :=
  match v with
  | Json.obj fields => lookupLast fields k
  | _ => none

/-- JavaScript string coercion of a JSON value, as applied by the markup
renderer to the spoken line. -/
def jsToString : Json → String
  | Json.null => ("null")
  | Json.bool true => ("true")
  | Json.bool false => ("false")
  | Json.num n => toString n
  | Json.str s => s
  | Json.arr vs => String.intercalate (",") (jsToStringList vs)
  | Json.obj _ => ("[object Object]")
where
  /-- Coercions of the elements of an array. -/
  jsToStringList : List Json → List String
  | [] => []
  | v :: vs => jsToString v :: jsToStringList vs

/-- Outcome of the one external text-understanding call: the free-text
reply (with a null output_text already replaced by the empty string, as
the source does with a JS or-default), or a network/timeout rejection. -/
inductive ServiceOutcome where
  | reply (text : String) : ServiceOutcome
  | failure : ServiceOutcome

/-- Fixed spoken line of the adapter fallback result (src/app.js line 65). -/
def fallbackSay : String := "Thanks. What day and time works best for you?"

/-- The fixed fallback result returned by agentReply when the external call
or the JSON parse fails (src/app.js lines 64-67). -/
def fallback : Json :=
  Json.obj [(("say"), Json.str fallbackSay), (("extracted"), Json.obj [])]

/-- The candidate JSON text agentReply parses: the slice of the trimmed
reply from the first opening brace to the last closing brace when both are
present, otherwise the whole trimmed reply (src/app.js lines 55-58). -/
def candidate (t : String) : String :=
  let text := jsTrim t
  let cs := text.data
  match jsIndexOf cs '\x7b', jsLastIndexOf cs '\x7d' with
  | some a, some b => ⟨(cs.drop a).take (b + 1 - a)⟩
  | _, _ => text

/-- Model of agentReply (src/app.js lines 37-69): on a reply, slice the
candidate JSON text and parse it, returning whatever JSON.parse produced;
on any thrown error (network/timeout rejection or parse failure) return
the fixed fallback result.  The function is total: no error escapes. -/
def agentReply (svc : ServiceOutcome) : Json :=
  match svc with
  | ServiceOutcome.failure => fallback
  | ServiceOutcome.reply t =>
    match Json.parse (candidate t) with
    | some v => v
    | none => fallback

/-- Per-call dialogue state (the values of the sessions map,
src/app.js line 30).  Fields name and preferred_time start undefined and
hold whatever JSON value the merge assigned; booked starts undefined
(modelled false). -/
structure Session where
  turns : Nat
  name : Option Json := none
  preferred_time : Option Json := none
  booked : Bool := false

/-- The default state a session is created with: turns 0, both fields
undefined, booked undefined (src/app.js line 33). -/
def Session.fresh : Session := { turns := 0 }

/-- The in-memory session store, a map from CallSid to session. -/
abbrev Store := List (String × Session)

/-- Lookup (Map.prototype.get combined with has). -/
def Store.get? : Store → String → Option Session
  | [], _ => none
  | (k1, v) :: rest, k => if k1 = k then some v else Store.get? rest k

/-- Update or insert a binding (Map.prototype.set). -/
def Store.put : Store → String → Session → Store
  | [], k, v => [(k, v)]
  | (k1, v1) :: rest, k, v =>
    if k1 = k then (k, v) :: rest else (k1, v1) :: Store.put rest k v

/-- Model of the source function s (src/app.js lines 32-35): return the
existing session for the CallSid, creating and inserting a fresh one
first when absent.  Total: it always succeeds. -/
def getOrCreate (st : Store) (callSid : String) : Store × Session :=
  match Store.get? st callSid with
  | some sess => (st, sess)
  | none => (Store.put st callSid Session.fresh, Session.fresh)

/-- Abstract response directives, the shallow embedding of the TwiML the
handlers emit.  gatherSay is a speech gather whose action posts the
transcription to the speech handler; dial carries the transfer callback. -/
inductive Directive where
  | say (line : String) : Directive
  | gatherSay (prompt : String) : Directive
  | redirect (path : String) : Directive
  | dial (number : String) : Directive
  | hangup : Directive
deriving DecidableEq

/-- Closing line of the turn-budget exhaustion branch (src/app.js line 132). -/
def closingLine : String := "Thanks. I’ll have the team call you back shortly. Goodbye."

/-- Reprompt for an empty utterance (src/app.js line 171). -/
def didntCatchLine : String := "I didn’t catch that."

/-- Apology of the catch-all error branch (src/app.js line 196). -/
def apologyLine : String := "I apologize, but something went wrong. A team member will call you back shortly."

/-- Booking confirmation line (src/app.js line 186). -/
def confirmLine : String := "You’re all set. We’ll text you to confirm. Goodbye."

/-- Explanatory line after a failed transfer (src/app.js line 118). -/
def tiedUpLine : String := "The team is tied up. I can schedule you right now."

/-- Default spoken line when cmd.say is falsy (src/app.js line 183). -/
def okayLine : String := "Okay."

/-- The extracted-fields object: `cmd.extracted ||` an empty object
(src/app.js line 177). -/
def extractedOf (cmd : Json) : Json :=
  match jsGetProp cmd ("extracted") with
  | some v => if jsTruthy v then v else Json.obj []
  | none => Json.obj []

/-- The spoken line `cmd.say ||` the default (src/app.js line 183),
with the renderer string coercion applied. -/
def sayOf (cmd : Json) : String :=
  match jsGetProp cmd ("say") with
  | some v => if jsTruthy v then jsToString v else okayLine
  | none => okayLine

/-- One field of the merge: `if (ex.f) session.f = ex.f` — a truthy
extracted value overwrites the current one, anything else leaves it
(src/app.js lines 178-179). -/
def mergeField (cur : Option Json) (ex : Option Json) : Option Json :=
  if jsTruthyOpt ex then ex else cur

/-- The booking update `if (session.name && session.preferred_time)
session.booked = true` (src/app.js line 181). -/
def bookIfComplete (sess : Session) : Session :=
  if jsTruthyOpt sess.name && jsTruthyOpt sess.preferred_time then
    { sess with booked := true }
  else sess

/-- Merge of one extraction result into the session followed by the
booking update (src/app.js lines 178-181). -/
def mergeSession (sess : Session) (ex : Json) : Session :=
  bookIfComplete { sess with
    name := mergeField sess.name (jsGetProp ex ("name")),
    preferred_time := mergeField sess.preferred_time (jsGetProp ex ("preferred_time")) }

/-- Session-level core of POST /voice/handle (src/app.js lines 160-200):
trim the transcription, increment turns, reprompt on empty speech, invoke
agentReply otherwise, merge, book, and answer; a null parse result makes
`cmd.extracted` throw, which the catch block turns into the apology
hangup.  The third component records whether the extraction adapter was
invoked this turn. -/
def handleSession (sess : Session) (speechResult : Option String)
    (svc : ServiceOutcome) : Session × List Directive × Bool :=
  let speech := jsTrim (speechResult.getD (""))
  let sessInc := { sess with turns := sess.turns + 1 }
  if speech = ("") then
    (sessInc, [Directive.say didntCatchLine, Directive.redirect ("/voice/gather")], false)
  else
    let cmd := agentReply svc
    if Json.isNull cmd then
      (sessInc, [Directive.say apologyLine, Directive.hangup], true)
    else
      let sess2 := mergeSession sessInc (extractedOf cmd)
      if sess2.booked then
        (sess2, [Directive.say (sayOf cmd), Directive.say confirmLine, Directive.hangup], true)
      else
        (sess2, [Directive.say (sayOf cmd), Directive.redirect ("/voice/gather")], true)

/-- Prompt chosen from the missing fields (src/app.js lines 145-153). -/
def gatherPrompt (sess : Session) : String :=
  if !jsTruthyOpt sess.name && !jsTruthyOpt sess.preferred_time then
    ("Tell me your name and the best day and time to come in.")
  else if !jsTruthyOpt sess.name then ("What is your name?")
  else if !jsTruthyOpt sess.preferred_time then ("What day and time works best?")
  else ("One moment.")

/-- Session-level core of POST /voice/gather (src/app.js lines 126-157):
over the turn budget, speak the closing line and hang up; otherwise issue
the speech gather (action POST /voice/handle) with the chosen prompt,
falling through to a redirect when no speech arrives. -/
def gatherResponse (maxTurns : Nat) (sess : Session) : List Directive :=
  if maxTurns ≤ sess.turns then
    [Directive.say closingLine, Directive.hangup]
  else
    [Directive.gatherSay (gatherPrompt sess), Directive.redirect ("/voice/gather")]

/-- Outcome of one dialogue turn of the call flow. -/
structure TurnOutcome where
  session : Session
  response : List Directive
  invokedExtraction : Bool

/-- One dialogue turn of the webhook flow, as wired in the source: the
gather endpoint runs first and checks the budget (src/app.js line 131);
only when it issues a gather does the provider post the speech to
/voice/handle (the gather action, src/app.js line 140), where extraction
can happen.  The turn response is the hangup decided by the gather when
over budget, and the speech handler response otherwise. -/
def dialogueTurn (maxTurns : Nat) (sess : Session) (speechResult : Option String)
    (svc : ServiceOutcome) : TurnOutcome :=
  if maxTurns ≤ sess.turns then
    { session := sess, response := gatherResponse maxTurns sess, invokedExtraction := false }
  else
    let r := handleSession sess speechResult svc
    { session := r.1, response := r.2.1, invokedExtraction := r.2.2 }

/-- POST /voice/after-transfer-attempt (src/app.js lines 111-123): a
completed transfer hangs up silently; every other DialCallStatus (or a
missing one) speaks the explanatory line and redirects into the gather
dialogue. -/
def afterTransferAttempt (dialCallStatus : Option String) : List Directive :=
  if dialCallStatus = some ("completed") then [Directive.hangup]
  else [Directive.say tiedUpLine, Directive.redirect ("/voice/gather")]

/-- A JavaScript runtime error escaping a handler (Express then answers
with an HTML 500 page instead of TwiML). -/
inductive JsError where
  | typeError (msg : String) : JsError
deriving DecidableEq

/-- Message of the TypeError thrown at src/app.js line 104, where
`twiml.saytwiml` is undefined and `.say` is read from it. -/
def undefinedSayMsg : String := "Cannot read properties of undefined reading say"

/-- POST /voice/initial (src/app.js lines 90-109): create the session,
then dial the office transfer number when one is configured (truthy); in
the no-transfer branch the source reads `.say` off the undefined
`twiml.saytwiml`, so the handler throws instead of answering. -/
def voiceInitial (officeTransferNumber : Option String) (st : Store)
    (callSid : String) : Store × Except JsError (List Directive) :=
  let r := getOrCreate st callSid
  if (officeTransferNumber.getD ("")) = ("") then
    (r.1, Except.error (JsError.typeError undefinedSayMsg))
  else
    (r.1, Except.ok [Directive.dial (officeTransferNumber.getD (""))])

/-- POST /voice/gather at the store level. -/
def voiceGather (maxTurns : Nat) (st : Store) (callSid : String) :
    Store × List Directive :=
  let r := getOrCreate st callSid
  (r.1, gatherResponse maxTurns r.2)

/-- POST /voice/handle at the store level: load or create the session,
run the speech turn, persist the mutated session. -/
def voiceHandle (st : Store) (callSid : String) (speechResult : Option String)
    (svc : ServiceOutcome) : Store × List Directive × Bool :=
  let r := getOrCreate st callSid
  let h := handleSession r.2 speechResult svc
  (Store.put r.1 callSid h.1, h.2.1, h.2.2)

/-- A directive that ends the abstract response with a valid next action:
hang up, redirect to another endpoint, or hand off to a dial. -/
def terminalDir : Directive → Bool
  | Directive.hangup => true
  | Directive.redirect _ => true
  | Directive.dial _ => true
  | _ => false

/-- A well-formed abstract response: non-empty and closed by a valid next
action (a trailing gather also counts, via its built-in redirect). -/
def wellFormed (r : List Directive) : Bool :=
  !r.isEmpty &&
    (match r.getLast? with
     | some d => terminalDir d
     | none => false)

/-- A whole call seen as a sequence of speech turns applied to a session. -/
def runTurns (sess : Session) : List (Option String × ServiceOutcome) → Session
  | [] => sess
  | e :: es => runTurns ((handleSession sess e.1 e.2).1) es

/-- Double-quote character, for assembling concrete service replies. -/
def qt : String := "\""

/-- Opening brace, for assembling concrete service replies. -/
def lb : String := "\x7b"

/-- Closing brace, for assembling concrete service replies. -/
def rb : String := "\x7d"

/-- A JSON string literal. -/
def jstr (s : String) : String := qt ++ s ++ qt

/-- A JSON object member. -/
def jfield (k v : String) : String := jstr k ++ ":" ++ v

/-- A JSON object with one member. -/
def jobj1 (f : String) : String := lb ++ f ++ rb

/-- A JSON object with two members. -/
def jobj2 (f g : String) : String := lb ++ f ++ "," ++ g ++ rb

/-- A service reply extracting the name Bob. -/
def bobReply : String :=
  jobj2 (jfield ("say") (jstr ("ok")))
    (jfield ("extracted") (jobj1 (jfield ("name") (jstr ("Bob")))))

/-- A service reply extracting both fields at once. -/
def fullReply : String :=
  jobj2 (jfield ("say") (jstr ("Great")))
    (jfield ("extracted")
      (jobj2 (jfield ("name") (jstr ("Dana"))) (jfield ("preferred_time") (jstr ("Tue 3pm")))))

/-- A service reply whose extracted name is the empty string. -/
def emptyNameReply : String :=
  jobj2 (jfield ("say") (jstr ("ok")))
    (jfield ("extracted") (jobj1 (jfield ("name") (jstr ("")))))

/-- A syntactically valid service reply with no say member. -/
def noSayReply : String := jobj1 (jfield ("extracted") (lb ++ rb))

/-- A reply with braces embedded in surrounding prose. -/
def proseReply : String := "x " ++ jobj1 (jfield ("a") ("1")) ++ " y"

/-- A session that has already recorded the name Dana. -/
def danaSession : Session := { turns := 1, name := some (Json.str ("Dana")) }

/-- A session that is already booked. -/
def bookedSession : Session :=
  { turns := 2, name := some (Json.str ("Dana")),
    preferred_time := some (Json.str ("Tue 3pm")), booked := true }

/-!  Helper lemmas. -/

/-- Inserting a binding makes it visible to lookup. -/
theorem Store.get?_put_self (st : Store) (k : String) (v : Session) :
    Store.get? (Store.put st k v) k = some v := by
  induction st with
  | nil => simp [Store.put, Store.get?]
  | cons hd tl ih =>
    obtain ⟨k1, v1⟩ := hd
    by_cases h : k1 = k <;> simp [Store.put, Store.get?, h, ih]

/-- Every gather response is well-formed. -/
theorem wellFormed_gatherResponse (budget : Nat) (sess : Session) :
    wellFormed (gatherResponse budget sess) = true := by
  unfold gatherResponse
  split <;> rfl

/-- Every speech-handler response is well-formed. -/
theorem wellFormed_handleSession (sess : Session) (sp : Option String)
    (svc : ServiceOutcome) : wellFormed ((handleSession sess sp svc).2.1) = true := by
  by_cases h1 : jsTrim (sp.getD ("")) = ("")
  · simp [handleSession, h1]; rfl
  · by_cases h2 : Json.isNull (agentReply svc) = true
    · simp [handleSession, h1, h2]; rfl
    · cases hb : (mergeSession { sess with turns := sess.turns + 1 }
          (extractedOf (agentReply svc))).booked <;>
        simp [handleSession, h1, h2, hb] <;> rfl

/-- The booking update does not change the collected fields. -/
theorem bookIfComplete_name (sess : Session) :
    (bookIfComplete sess).name = sess.name := by
  unfold bookIfComplete; split <;> rfl

/-- The booking update does not change the collected fields. -/
theorem bookIfComplete_time (sess : Session) :
    (bookIfComplete sess).preferred_time = sess.preferred_time := by
  unfold bookIfComplete; split <;> rfl

/-- The booked flag after the update: previous value, or true when both
fields are truthy. -/
theorem bookIfComplete_booked (sess : Session) :
    (bookIfComplete sess).booked =
      (sess.booked || (jsTruthyOpt sess.name && jsTruthyOpt sess.preferred_time)) := by
  unfold bookIfComplete
  cases hb : sess.booked <;>
    cases hc : jsTruthyOpt sess.name && jsTruthyOpt sess.preferred_time <;>
      simp [hb, hc]

/-- The merged name field. -/
theorem mergeSession_name (sess : Session) (ex : Json) :
    (mergeSession sess ex).name = mergeField sess.name (jsGetProp ex ("name")) := by
  unfold mergeSession; rw [bookIfComplete_name]

/-- The merged preferred_time field. -/
theorem mergeSession_time (sess : Session) (ex : Json) :
    (mergeSession sess ex).preferred_time =
      mergeField sess.preferred_time (jsGetProp ex ("preferred_time")) := by
  unfold mergeSession; rw [bookIfComplete_time]

/-- The booked flag after a merge. -/
theorem mergeSession_booked (sess : Session) (ex : Json) :
    (mergeSession sess ex).booked =
      (sess.booked ||
        (jsTruthyOpt (mergeSession sess ex).name &&
         jsTruthyOpt (mergeSession sess ex).preferred_time)) := by
  rw [mergeSession_name, mergeSession_time]
  unfold mergeSession
  rw [bookIfComplete_booked]

/-- A truthy field stays truthy across a merge. -/
theorem mergeField_truthy_mono (cur ex : Option Json)
    (h : jsTruthyOpt cur = true) : jsTruthyOpt (mergeField cur ex) = true := by
  unfold mergeField; split <;> simp_all

/-- A merged field value is the old one or a truthy extracted one. -/
theorem mergeField_eq_some (cur ex : Option Json) (v : Json)
    (h : mergeField cur ex = some v) : cur = some v ∨ jsTruthy v = true := by
  unfold mergeField at h
  split at h
  · right
    rename_i ht
    rw [h] at ht
    simpa [jsTruthyOpt] using ht
  · left; exact h

/-- A set field never becomes unset by a merge. -/
theorem mergeField_ne_none (cur ex : Option Json) (h : cur ≠ none) :
    mergeField cur ex ≠ none := by
  unfold mergeField
  split
  · rename_i ht
    cases ex with
    | none => simp [jsTruthyOpt] at ht
    | some v => simp
  · exact h

/-- The session a speech turn produces: either only the turn counter moved
(empty speech or the caught null-parse error), or the extraction result
was merged into the incremented session. -/
theorem handleSession_cases (sess : Session) (sp : Option String) (svc : ServiceOutcome) :
    (handleSession sess sp svc).1 = { sess with turns := sess.turns + 1 } ∨
    (handleSession sess sp svc).1 =
      mergeSession { sess with turns := sess.turns + 1 } (extractedOf (agentReply svc)) := by
  unfold handleSession
  by_cases h1 : jsTrim (sp.getD ("")) = ("")
  · left; simp [h1]
  · by_cases h2 : Json.isNull (agentReply svc) = true
    · left; simp [h1, h2]
    · right
      rw [Bool.not_eq_true] at h2
      simp only [h1, h2, if_false, Bool.false_eq_true, if_neg (fun h => h1 h)]
      split <;> rfl

/-- In a speech turn with non-empty speech and a non-null parse result,
the produced session is exactly the merge into the incremented session. -/
theorem handleSession_merge (sess : Session) (sp : Option String) (svc : ServiceOutcome)
    (hsp : jsTrim (sp.getD ("")) ≠ ("")) (hcmd : Json.isNull (agentReply svc) = false) :
    (handleSession sess sp svc).1 =
      mergeSession { sess with turns := sess.turns + 1 } (extractedOf (agentReply svc)) := by
  unfold handleSession
  simp only [hcmd, if_neg hsp, Bool.false_eq_true, if_false]
  split <;> rfl

/-- booked is monotone across one speech turn. -/
theorem handle_booked_mono (sess : Session) (sp : Option String) (svc : ServiceOutcome)
    (h : sess.booked = true) : ((handleSession sess sp svc).1).booked = true := by
  rcases handleSession_cases sess sp svc with hc | hc <;> rw [hc]
  · exact h
  · rw [mergeSession_booked]
    have hb : ({ sess with turns := sess.turns + 1 } : Session).booked = true := h
    rw [hb]; rfl

/-- The booked flag equals completeness of the two fields. -/
def BookedInv (sess : Session) : Prop :=
  sess.booked = (jsTruthyOpt sess.name && jsTruthyOpt sess.preferred_time)

/-- A merge preserves the booked-completeness invariant. -/
theorem mergeSession_bookedInv (sess : Session) (ex : Json) (h : BookedInv sess) :
    BookedInv (mergeSession sess ex) := by
  unfold BookedInv at h ⊢
  rw [mergeSession_booked, h]
  by_cases hc : (jsTruthyOpt sess.name && jsTruthyOpt sess.preferred_time) = true
  · obtain ⟨hn, ht⟩ := Bool.and_eq_true_iff.mp hc
    have hn2 := mergeField_truthy_mono sess.name (jsGetProp ex ("name")) hn
    have ht2 := mergeField_truthy_mono sess.preferred_time (jsGetProp ex ("preferred_time")) ht
    rw [mergeSession_name, mergeSession_time, hn2, ht2, hc]
    rfl
  · rw [Bool.not_eq_true] at hc
    rw [hc]
    rfl

/-- One speech turn preserves the booked-completeness invariant. -/
theorem handle_bookedInv (sess : Session) (sp : Option String) (svc : ServiceOutcome)
    (h : BookedInv sess) : BookedInv ((handleSession sess sp svc).1) := by
  rcases handleSession_cases sess sp svc with hc | hc <;> rw [hc]
  · exact h
  · exact mergeSession_bookedInv _ _ h

/-- The booked-completeness invariant holds along any whole call. -/
theorem runTurns_bookedInv (trace : List (Option String × ServiceOutcome)) :
    ∀ sess, BookedInv sess → BookedInv (runTurns sess trace) := by
  induction trace with
  | nil => intro s h; exact h
  | cons e es ih =>
    intro s h
    exact ih _ (handle_bookedInv s e.1 e.2 h)

/-- On the turn where booking first completes, the response is the spoken
line, the confirmation line, and a hangup. -/
theorem handle_completion (sess : Session) (sp : Option String) (svc : ServiceOutcome)
    (h0 : sess.booked = false) (h1 : ((handleSession sess sp svc).1).booked = true) :
    (handleSession sess sp svc).2.1 =
      [Directive.say (sayOf (agentReply svc)), Directive.say confirmLine, Directive.hangup] := by
  unfold handleSession at h1 ⊢
  by_cases hs : jsTrim (sp.getD ("")) = ("")
  · simp [hs] at h1
    exact absurd h1 (by rw [h0]; exact Bool.false_ne_true)
  · by_cases hn : Json.isNull (agentReply svc) = true
    · simp [hs, hn] at h1
      exact absurd h1 (by rw [h0]; exact Bool.false_ne_true)
    · rw [Bool.not_eq_true] at hn
      simp only [hn, if_neg hs, Bool.false_eq_true, if_false] at h1 ⊢
      by_cases hb : (mergeSession { sess with turns := sess.turns + 1 }
          (extractedOf (agentReply svc))).booked = true
      · rw [if_pos hb]
      · rw [Bool.not_eq_true] at hb
        rw [if_neg (by rw [hb]; exact Bool.false_ne_true)] at h1
        exact absurd h1 (by rw [hb]; exact Bool.false_ne_true)

/-- Set fields only ever hold truthy values across one speech turn. -/
theorem handle_fields_truthy (sess : Session) (sp : Option String) (svc : ServiceOutcome)
    (hn : ∀ v, sess.name = some v → jsTruthy v = true)
    (ht : ∀ v, sess.preferred_time = some v → jsTruthy v = true) :
    (∀ v, ((handleSession sess sp svc).1).name = some v → jsTruthy v = true) ∧
    (∀ v, ((handleSession sess sp svc).1).preferred_time = some v → jsTruthy v = true) := by
  rcases handleSession_cases sess sp svc with hc | hc <;> rw [hc]
  · exact ⟨hn, ht⟩
  · constructor <;> intro v hv
    · rw [mergeSession_name] at hv
      rcases mergeField_eq_some _ _ _ hv with h | h
      · exact hn v h
      · exact h
    · rw [mergeSession_time] at hv
      rcases mergeField_eq_some _ _ _ hv with h | h
      · exact ht v h
      · exact h

/-- Set fields only ever hold truthy values along any whole call. -/
theorem runTurns_fields_truthy (trace : List (Option String × ServiceOutcome)) :
    ∀ sess, (∀ v, sess.name = some v → jsTruthy v = true) →
      (∀ v, sess.preferred_time = some v → jsTruthy v = true) →
      (∀ v, (runTurns sess trace).name = some v → jsTruthy v = true) ∧
      (∀ v, (runTurns sess trace).preferred_time = some v → jsTruthy v = true) := by
  induction trace with
  | nil => intro s hn ht; exact ⟨hn, ht⟩
  | cons e es ih =>
    intro s hn ht
    have h := handle_fields_truthy s e.1 e.2 hn ht
    exact ih _ h.1 h.2

/-- Two distinct stored strings are distinct session field values. -/
theorem some_str_ne (a b : String) (h : a ≠ b) :
    (some (Json.str a) : Option Json) ≠ some (Json.str b) := by
  intro he
  injection he with h1
  injection h1 with h2
  exact h h2

/-- Characterization of the first-occurrence index: the list splits at it
and the target does not occur before it. -/
theorem jsIndexOf_spec (cs : List Char) (t : Char) :
    ∀ i, jsIndexOf cs t = some i →
      ∃ pre post, cs = pre ++ t :: post ∧ pre.length = i ∧ t ∉ pre := by
  induction cs with
  | nil => intro i h; simp [jsIndexOf] at h
  | cons c cs ih =>
    intro i h
    by_cases hc : c = t
    · subst hc
      simp [jsIndexOf] at h
      exact ⟨[], cs, rfl, h, by simp⟩
    · simp [jsIndexOf, hc] at h
      obtain ⟨i0, h0, hi⟩ := h
      obtain ⟨pre, post, hcs, hlen, hmem⟩ := ih i0 h0
      refine ⟨c :: pre, post, by simp [hcs], by simp [hlen, hi], ?_⟩
      simp only [List.mem_cons, not_or]
      exact ⟨fun he => hc he.symm, hmem⟩

/-- When lastIndexOf finds nothing the target does not occur at all. -/
theorem jsLastIndexOf_none (cs : List Char) (t : Char)
    (h : jsLastIndexOf cs t = none) : t ∉ cs := by
  induction cs with
  | nil => simp
  | cons c cs ih =>
    cases hj : jsLastIndexOf cs t with
    | some j => simp [jsLastIndexOf, hj] at h
    | none =>
      simp only [jsLastIndexOf, hj] at h
      by_cases hc : c = t
      · simp [hc] at h
      · simp only [List.mem_cons, not_or]
        exact ⟨fun he => hc he.symm, ih hj⟩

/-- Characterization of the last-occurrence index: the list splits at it
and the target does not occur after it. -/
theorem jsLastIndexOf_spec (cs : List Char) (t : Char) :
    ∀ j, jsLastIndexOf cs t = some j →
      ∃ pre post, cs = pre ++ t :: post ∧ pre.length = j ∧ t ∉ post := by
  induction cs with
  | nil => intro j h; simp [jsLastIndexOf] at h
  | cons c cs ih =>
    intro j h
    cases hj : jsLastIndexOf cs t with
    | some j0 =>
      simp [jsLastIndexOf, hj] at h
      obtain ⟨pre, post, hcs, hlen, hmem⟩ := ih j0 hj
      refine ⟨c :: pre, post, by simp [hcs], ?_, hmem⟩
      simp [List.length_cons, hlen, h]
    | none =>
      simp only [jsLastIndexOf, hj] at h
      by_cases hc : c = t
      · subst hc
        simp at h
        exact ⟨[], cs, rfl, h, jsLastIndexOf_none cs _ hj⟩
      · simp [hc] at h

/-- The candidate slice once both braces are found. -/
theorem candidate_eq_slice (t : String) (i j : Nat)
    (hi : jsIndexOf (jsTrim t).data '\x7b' = some i)
    (hj : jsLastIndexOf (jsTrim t).data '\x7d' = some j) :
    (candidate t).data = (((jsTrim t).data).drop i).take (j + 1 - i) := by
  simp [candidate, hi, hj]

/-- Extensional characterization of the candidate slice: it is a middle
segment of the trimmed reply that starts at the first opening brace (none
occurs before it) and ends at the last closing brace (none occurs after
it). -/
theorem candidate_decomp (t : String) (i j : Nat)
    (hi : jsIndexOf (jsTrim t).data '\x7b' = some i)
    (hj : jsLastIndexOf (jsTrim t).data '\x7d' = some j)
    (hij : i ≤ j) :
    ∃ pre post, (jsTrim t).data = pre ++ (candidate t).data ++ post ∧
      pre.length = i ∧ '\x7b' ∉ pre ∧ '\x7d' ∉ post ∧
      (candidate t).data.head? = some '\x7b' ∧
      (candidate t).data.getLast? = some '\x7d' := by
  obtain ⟨p1, q1, hcs1, hlen1, hmem1⟩ := jsIndexOf_spec (jsTrim t).data '\x7b' i hi
  obtain ⟨p2, q2, hcs2, hlen2, hmem2⟩ := jsLastIndexOf_spec (jsTrim t).data '\x7d' j hj
  have hdata := candidate_eq_slice t i j hi hj
  set cs := (jsTrim t).data with hcsdef
  have hp1 : cs.take i = p1 := by
    rw [hcs1]; exact List.take_left' hlen1
  have hq2 : cs.drop (j + 1) = q2 := by
    rw [hcs2]
    have h2 : p2 ++ '\x7d' :: q2 = (p2 ++ ['\x7d']) ++ q2 := by simp
    rw [h2]
    exact List.drop_left' (by simp [hlen2])
  have hmid : (cs.take (j + 1)).drop i = (candidate t).data := by
    rw [hdata]; exact List.drop_take (j + 1) i cs
  have hdrop : cs.drop i = '\x7b' :: q1 := by
    rw [hcs1]; exact List.drop_left' hlen1
  have htake : cs.take (j + 1) = p2 ++ ['\x7d'] := by
    rw [hcs2]
    have h2 : p2 ++ '\x7d' :: q2 = (p2 ++ ['\x7d']) ++ q2 := by simp
    rw [h2]
    exact List.take_left' (by simp [hlen2])
  refine ⟨p1, q2, ?_, hlen1, hmem1, hmem2, ?_, ?_⟩
  · calc cs = cs.take (j + 1) ++ cs.drop (j + 1) := (List.take_append_drop _ _).symm
      _ = ((cs.take (j + 1)).take i ++ (cs.take (j + 1)).drop i) ++ cs.drop (j + 1) := by
          rw [List.take_append_drop i (cs.take (j + 1))]
      _ = (cs.take i ++ (candidate t).data) ++ q2 := by
          rw [List.take_take, Nat.min_eq_left (by omega), hmid, hq2]
      _ = p1 ++ (candidate t).data ++ q2 := by rw [hp1, List.append_assoc]
  · rw [hdata, hdrop]
    have hk : j + 1 - i = (j - i) + 1 := by omega
    rw [hk]
    rfl
  · rw [← hmid, htake,
      List.drop_append_of_le_length (by rw [hlen2]; exact hij)]
    exact List.getLast?_concat _

/-!  Claim theorems. -/

/-- C7: for every transfer-outcome callback, a completed status answers
with an immediate hangup and no spoken dialogue, and every other status
(including a missing one) speaks the explanatory tied-up line and
redirects into the gathering dialogue. -/
theorem C7_transfer_outcome (status : Option String) :
    (status = some ("completed") → afterTransferAttempt status = [Directive.hangup]) ∧
    (status ≠ some ("completed") →
      afterTransferAttempt status =
        [Directive.say tiedUpLine, Directive.redirect ("/voice/gather")]) := by
  constructor
  · intro h; simp [afterTransferAttempt, h]
  · intro h; simp [afterTransferAttempt, h]

/-- C7 witness: concrete completed and no-answer callbacks. -/
theorem C7_transfer_outcome_witness :
    afterTransferAttempt (some ("completed")) = [Directive.hangup] ∧
    afterTransferAttempt (some ("no-answer")) =
      [Directive.say tiedUpLine, Directive.redirect ("/voice/gather")] :=
  ⟨(C7_transfer_outcome (some ("completed"))).1 rfl,
   (C7_transfer_outcome (some ("no-answer"))).2 (by decide)⟩

/-- C8: getOrCreate returns the stored session when the CallSid is known
and otherwise inserts and returns a session in the default state (turns 0,
both fields unset, booked false); it is total, and a repeated call with
the same CallSid returns the same session without resetting the store. -/
theorem C8_getOrCreate (st : Store) (k : String) :
    Session.fresh.turns = 0 ∧ Session.fresh.name = none ∧
    Session.fresh.preferred_time = none ∧ Session.fresh.booked = false ∧
    (∀ sess, Store.get? st k = some sess → getOrCreate st k = (st, sess)) ∧
    (Store.get? st k = none →
      getOrCreate st k = (Store.put st k Session.fresh, Session.fresh)) ∧
    getOrCreate (getOrCreate st k).1 k = ((getOrCreate st k).1, (getOrCreate st k).2) := by
  refine ⟨rfl, rfl, rfl, rfl, ?_, ?_, ?_⟩
  · intro sess h; simp [getOrCreate, h]
  · intro h; simp [getOrCreate, h]
  · cases h : Store.get? st k <;> simp [getOrCreate, h, Store.get?_put_self]

/-- C8 witness: creating then re-reading the session for one CallSid. -/
theorem C8_getOrCreate_witness :
    getOrCreate [] ("CA1") = ([(("CA1"), Session.fresh)], Session.fresh) ∧
    getOrCreate [(("CA1"), Session.fresh)] ("CA1") =
      ([(("CA1"), Session.fresh)], Session.fresh) :=
  ⟨(C8_getOrCreate [] ("CA1")).2.2.2.2.2.1 rfl,
   (C8_getOrCreate [(("CA1"), Session.fresh)] ("CA1")).2.2.2.2.1 Session.fresh rfl⟩

/-- C3: when a session has consumed its turn budget, the dialogue turn
decided for it is the closing statement plus hangup, and the extraction
adapter is not invoked: the budget check sits in the gather endpoint,
which runs before any speech can be posted to the speech handler. -/
theorem C3_turn_budget (budget : Nat) (sess : Session) (sp : Option String)
    (svc : ServiceOutcome) (h : budget ≤ sess.turns) :
    (dialogueTurn budget sess sp svc).response =
      [Directive.say closingLine, Directive.hangup] ∧
    (dialogueTurn budget sess sp svc).invokedExtraction = false ∧
    (dialogueTurn budget sess sp svc).session = sess ∧
    gatherResponse budget sess = [Directive.say closingLine, Directive.hangup] := by
  refine ⟨?_, ?_, ?_, ?_⟩ <;> simp [dialogueTurn, gatherResponse, h]

/-- C3 witness: a session at the default budget of six turns. -/
theorem C3_turn_budget_witness :
    (dialogueTurn 6 ({ turns := 6 } : Session) (some ("hello")) ServiceOutcome.failure).response =
      [Directive.say closingLine, Directive.hangup] ∧
    (dialogueTurn 6 ({ turns := 6 } : Session) (some ("hello")) ServiceOutcome.failure).invokedExtraction = false :=
  ⟨(C3_turn_budget 6 { turns := 6 } (some ("hello")) ServiceOutcome.failure (by decide)).1,
   (C3_turn_budget 6 { turns := 6 } (some ("hello")) ServiceOutcome.failure (by decide)).2.1⟩

/-- C4 counterexample: on an empty utterance the handler increments turns
from 0 to 1, refuting the claim that turnCount is left unchanged. -/
theorem C4_counterexample :
    ((handleSession Session.fresh none ServiceOutcome.failure).1).turns = 1 ∧
    ((handleSession Session.fresh none ServiceOutcome.failure).1).turns ≠ Session.fresh.turns :=
  ⟨rfl, by decide⟩

/-- C4 amended: on empty transcribed speech the handler answers with the
didn’t-catch prompt and a redirect back to the gather (listen again),
never invokes the extraction adapter, and increments turnCount by one
(the increment precedes the empty-speech check). -/
theorem C4_amended (sess : Session) (sp : Option String) (svc : ServiceOutcome)
    (h : jsTrim (sp.getD ("")) = ("")) :
    handleSession sess sp svc =
      ({ sess with turns := sess.turns + 1 },
       [Directive.say didntCatchLine, Directive.redirect ("/voice/gather")], false) := by
  simp [handleSession, h]

/-- C4 witness: a turn with no transcription at all. -/
theorem C4_amended_witness :
    handleSession Session.fresh none ServiceOutcome.failure =
      ({ Session.fresh with turns := 1 },
       [Directive.say didntCatchLine, Directive.redirect ("/voice/gather")], false) :=
  C4_amended Session.fresh none ServiceOutcome.failure rfl

/-- C2: the transfer-outcome, gather and speech endpoints always produce a
well-formed abstract response (the speech handler converts internal
errors into the apology hangup), but the initial endpoint with no
transfer number configured throws a TypeError reading .say from the
undefined twiml.saytwiml, so that webhook produces no response at all. -/
theorem C2_always_respond_bug (status : Option String) (budget : Nat)
    (sp : Option String) (svc : ServiceOutcome) (st st2 : Store) (sid sid2 : String) :
    wellFormed (afterTransferAttempt status) = true ∧
    wellFormed ((voiceGather budget st sid).2) = true ∧
    wellFormed ((voiceHandle st sid sp svc).2.1) = true ∧
    (voiceInitial none st2 sid2).2 = Except.error (JsError.typeError undefinedSayMsg) := by
  refine ⟨?_, ?_, ?_, ?_⟩
  · by_cases h : status = some ("completed") <;> simp [afterTransferAttempt, h] <;> rfl
  · simpa [voiceGather] using wellFormed_gatherResponse budget (getOrCreate st sid).2
  · simpa [voiceHandle] using wellFormed_handleSession (getOrCreate st sid).2 sp svc
  · simp [voiceInitial]

/-- C5: booked is monotone across speech turns (never reverts, so it rises
false to true at most once); along any call from a fresh session it equals
completeness of the two fields (it becomes true exactly when both name and
preferred_time are populated, and whenever it holds both fields are); and
on the turn where booking completes, the response is the spoken line plus
the confirmation line and a hangup. -/
theorem C5_booking (sess : Session) (sp : Option String) (svc : ServiceOutcome)
    (trace : List (Option String × ServiceOutcome)) :
    (sess.booked = true → ((handleSession sess sp svc).1).booked = true) ∧
    ((runTurns Session.fresh trace).booked =
      (jsTruthyOpt (runTurns Session.fresh trace).name &&
       jsTruthyOpt (runTurns Session.fresh trace).preferred_time)) ∧
    (sess.booked = false → ((handleSession sess sp svc).1).booked = true →
      (handleSession sess sp svc).2.1 =
        [Directive.say (sayOf (agentReply svc)), Directive.say confirmLine,
         Directive.hangup]) := by
  refine ⟨fun h => handle_booked_mono sess sp svc h, ?_,
    fun h0 h1 => handle_completion sess sp svc h0 h1⟩
  exact runTurns_bookedInv trace Session.fresh rfl

/-- C5 witness: a booked session stays booked through a failed turn; a
fresh call stays consistent; and the turn that extracts both fields at
once answers with the confirmation and hangs up. -/
theorem C5_booking_witness :
    ((handleSession bookedSession (some ("hi")) ServiceOutcome.failure).1).booked = true ∧
    ((runTurns Session.fresh [(some ("hi"), ServiceOutcome.reply fullReply)]).booked =
      (jsTruthyOpt (runTurns Session.fresh [(some ("hi"), ServiceOutcome.reply fullReply)]).name &&
       jsTruthyOpt (runTurns Session.fresh [(some ("hi"), ServiceOutcome.reply fullReply)]).preferred_time)) ∧
    (handleSession Session.fresh (some ("hi")) (ServiceOutcome.reply fullReply)).2.1 =
      [Directive.say (sayOf (agentReply (ServiceOutcome.reply fullReply))),
       Directive.say confirmLine, Directive.hangup] :=
  ⟨(C5_booking bookedSession (some ("hi")) ServiceOutcome.failure []).1 rfl,
   (C5_booking Session.fresh none ServiceOutcome.failure
      [(some ("hi"), ServiceOutcome.reply fullReply)]).2.1,
   (C5_booking Session.fresh (some ("hi")) (ServiceOutcome.reply fullReply) []).2.2 rfl rfl⟩

/-- C10: an extraction result carrying an empty-string name or
preferred_time leaves the corresponding session field unchanged (the merge
tests JS truthiness, and the empty string is falsy); consequently along
any call every set session field holds a truthy value (a set string field
is a non-empty string), and booked can only hold with both fields truthy. -/
theorem C10_empty_string_ignored (sess : Session) (sp : Option String)
    (svc : ServiceOutcome) (trace : List (Option String × ServiceOutcome)) :
    (jsGetProp (extractedOf (agentReply svc)) ("name") = some (Json.str ("")) →
      ((handleSession sess sp svc).1).name = sess.name) ∧
    (jsGetProp (extractedOf (agentReply svc)) ("preferred_time") = some (Json.str ("")) →
      ((handleSession sess sp svc).1).preferred_time = sess.preferred_time) ∧
    (∀ v, (runTurns Session.fresh trace).name = some v → jsTruthy v = true) ∧
    (∀ v, (runTurns Session.fresh trace).preferred_time = some v → jsTruthy v = true) ∧
    ((runTurns Session.fresh trace).booked = true →
      jsTruthyOpt (runTurns Session.fresh trace).name = true ∧
      jsTruthyOpt (runTurns Session.fresh trace).preferred_time = true) := by
  have hrun := runTurns_fields_truthy trace Session.fresh
    (by intro v hv; exact absurd hv (by simp [Session.fresh]))
    (by intro v hv; exact absurd hv (by simp [Session.fresh]))
  refine ⟨?_, ?_, hrun.1, hrun.2, ?_⟩
  · intro h
    rcases handleSession_cases sess sp svc with hc | hc <;> rw [hc]
    rw [mergeSession_name, h]
    unfold mergeField
    simp [jsTruthyOpt, jsTruthy]
  · intro h
    rcases handleSession_cases sess sp svc with hc | hc <;> rw [hc]
    rw [mergeSession_time, h]
    unfold mergeField
    simp [jsTruthyOpt, jsTruthy]
  · intro hb
    have hinv := runTurns_bookedInv trace Session.fresh rfl
    unfold BookedInv at hinv
    rw [hb] at hinv
    exact Bool.and_eq_true_iff.mp hinv.symm

/-- C10 witness: an extracted empty-string name leaves the recorded name
Dana in place, and a call that recorded Bob holds a truthy value. -/
theorem C10_empty_string_ignored_witness :
    ((handleSession danaSession (some ("hi")) (ServiceOutcome.reply emptyNameReply)).1).name =
      danaSession.name ∧
    (∀ v, (runTurns Session.fresh [(some ("hi"), ServiceOutcome.reply bobReply)]).name = some v →
      jsTruthy v = true) :=
  ⟨(C10_empty_string_ignored danaSession (some ("hi"))
      (ServiceOutcome.reply emptyNameReply) []).1 rfl,
   (C10_empty_string_ignored Session.fresh none ServiceOutcome.failure
      [(some ("hi"), ServiceOutcome.reply bobReply)]).2.2.1⟩

/-- C1 counterexample: a session that already recorded the name Dana
receives an extraction result naming Bob, and the merge overwrites the
field — refuting first-write-wins as stated. -/
theorem C1_counterexample :
    ((handleSession danaSession (some ("hi")) (ServiceOutcome.reply bobReply)).1).name =
      some (Json.str ("Bob")) ∧
    ((handleSession danaSession (some ("hi")) (ServiceOutcome.reply bobReply)).1).name ≠
      danaSession.name :=
  ⟨rfl, fun h => some_str_ne ("Bob") ("Dana") (by decide) h⟩

/-- C1 amended: the merge is last-truthy-write-wins. On a speech turn, a
truthy (non-null, non-empty) extracted name or preferred_time overwrites
the session field even when already set; a null, absent or empty extracted
value leaves the field unchanged; and a set field never becomes unset. -/
theorem C1_amended (sess : Session) (sp : Option String) (svc : ServiceOutcome)
    (hsp : jsTrim (sp.getD ("")) ≠ ("")) (hcmd : Json.isNull (agentReply svc) = false) :
    (∀ v, jsGetProp (extractedOf (agentReply svc)) ("name") = some v →
      jsTruthy v = true → ((handleSession sess sp svc).1).name = some v) ∧
    (jsTruthyOpt (jsGetProp (extractedOf (agentReply svc)) ("name")) = false →
      ((handleSession sess sp svc).1).name = sess.name) ∧
    (∀ v, jsGetProp (extractedOf (agentReply svc)) ("preferred_time") = some v →
      jsTruthy v = true → ((handleSession sess sp svc).1).preferred_time = some v) ∧
    (jsTruthyOpt (jsGetProp (extractedOf (agentReply svc)) ("preferred_time")) = false →
      ((handleSession sess sp svc).1).preferred_time = sess.preferred_time) ∧
    (sess.name ≠ none → ((handleSession sess sp svc).1).name ≠ none) ∧
    (sess.preferred_time ≠ none → ((handleSession sess sp svc).1).preferred_time ≠ none) := by
  have hm := handleSession_merge sess sp svc hsp hcmd
  refine ⟨?_, ?_, ?_, ?_, ?_, ?_⟩
  · intro v hv htr
    rw [hm, mergeSession_name, hv]
    unfold mergeField
    simp [jsTruthyOpt, htr]
  · intro h
    rw [hm, mergeSession_name]
    unfold mergeField
    rw [h]
    rfl
  · intro v hv htr
    rw [hm, mergeSession_time, hv]
    unfold mergeField
    simp [jsTruthyOpt, htr]
  · intro h
    rw [hm, mergeSession_time]
    unfold mergeField
    rw [h]
    rfl
  · intro h
    rw [hm, mergeSession_name]
    exact mergeField_ne_none _ _ h
  · intro h
    rw [hm, mergeSession_time]
    exact mergeField_ne_none _ _ h

/-- C1 amended witness: a fresh session records the extracted name Bob. -/
theorem C1_amended_witness :
    ((handleSession Session.fresh (some ("hi")) (ServiceOutcome.reply bobReply)).1).name =
      some (Json.str ("Bob")) :=
  (C1_amended Session.fresh (some ("hi")) (ServiceOutcome.reply bobReply)
    (by decide) rfl).1 (Json.str ("Bob")) rfl rfl

/-- C6 counterexample: a parseable reply with no say member is returned as
parsed — not replaced by the fixed fallback result — refuting the claim
that a missing spoken-reply field triggers the fallback. -/
theorem C6_counterexample :
    agentReply (ServiceOutcome.reply noSayReply) = Json.obj [(("extracted"), Json.obj [])] ∧
    jsGetProp (agentReply (ServiceOutcome.reply noSayReply)) ("say") = none ∧
    agentReply (ServiceOutcome.reply noSayReply) ≠ fallback := by
  refine ⟨rfl, rfl, fun h => ?_⟩
  have h2 := congrArg (fun v => jsGetProp v ("say")) h
  exact Option.noConfusion h2

/-- C6 amended: agentReply returns the fixed fallback result exactly on a
network or timeout failure of the external call and whenever the candidate
text fails to parse as JSON (which covers an empty response); it is total,
so no error reaches the caller-facing path.  A parsed reply without the
spoken-reply field, however, is returned as parsed. -/
theorem C6_fallback_amended (t : String) (h : Json.parse (candidate t) = none) :
    agentReply (ServiceOutcome.reply t) = fallback ∧
    agentReply ServiceOutcome.failure = fallback ∧
    agentReply (ServiceOutcome.reply ("")) = fallback := by
  refine ⟨?_, rfl, rfl⟩
  simp [agentReply, h]

/-- C6 amended witness: plain prose falls back. -/
theorem C6_fallback_amended_witness :
    agentReply (ServiceOutcome.reply ("hello there")) = fallback :=
  (C6_fallback_amended ("hello there") rfl).1

/-- C9 counterexample: a reply with no braces at all is not treated as a
failure case — the whole text is parsed, and the bare number 42 is
returned instead of the fallback. -/
theorem C9_counterexample :
    agentReply (ServiceOutcome.reply ("42")) = Json.num 42 ∧
    agentReply (ServiceOutcome.reply ("42")) ≠ fallback := by
  refine ⟨rfl, fun h => ?_⟩
  exact Json.noConfusion h

/-- C9 amended: when both braces occur (in order), the adapter parses
exactly the substring of the trimmed reply running from the first opening
brace (none occurs before it) to the last closing brace (none occurs
after it); when either brace is absent it parses the whole trimmed reply;
in both cases the fallback is produced only when that parse fails. -/
theorem C9_json_substring_amended (t : String) :
    (∀ i j, jsIndexOf (jsTrim t).data '\x7b' = some i →
      jsLastIndexOf (jsTrim t).data '\x7d' = some j → i ≤ j →
      ∃ pre post, (jsTrim t).data = pre ++ (candidate t).data ++ post ∧
        pre.length = i ∧ '\x7b' ∉ pre ∧ '\x7d' ∉ post ∧
        (candidate t).data.head? = some '\x7b' ∧
        (candidate t).data.getLast? = some '\x7d') ∧
    (jsIndexOf (jsTrim t).data '\x7b' = none ∨
      jsLastIndexOf (jsTrim t).data '\x7d' = none →
      candidate t = jsTrim t) ∧
    agentReply (ServiceOutcome.reply t) =
      (match Json.parse (candidate t) with
       | some v => v
       | none => fallback) := by
  refine ⟨fun i j hi hj hij => candidate_decomp t i j hi hj hij, ?_, rfl⟩
  intro h
  rcases h with h | h
  · simp [candidate, h]
  · cases hx : jsIndexOf (jsTrim t).data '\x7b' <;> simp [candidate, hx, h]

/-- C9 amended witness: a reply with braces embedded in prose. -/
theorem C9_json_substring_amended_witness :
    ∃ pre post, (jsTrim proseReply).data = pre ++ (candidate proseReply).data ++ post ∧
      pre.length = 2 ∧ '\x7b' ∉ pre ∧ '\x7d' ∉ post ∧
      (candidate proseReply).data.head? = some '\x7b' ∧
      (candidate proseReply).data.getLast? = some '\x7d' :=
  (C9_json_substring_amended proseReply).1 2 8 (by decide) (by decide) (by decide)

end FrontDesk
